import Mathlib

/-!
Shallow embedding of the heading-index core of the `headings-in-explorer`
plugin (`src/main.ts`), together with proofs of the specified properties.

Conventions of the embedding:
* JavaScript strings are Lean `String`s; file text is given as the list of
  its lines (the source computes `fileContent.split('\n')`, which always
  yields at least one line).
* A JavaScript value that may be `undefined` is an `Option`.
* JavaScript numbers holding array indices are `Int` (the binary search's
  `end` index can reach `-1`); line numbers and heading levels are `Nat`.
* A JavaScript exception (the `SyntaxError` thrown by `new RegExp` on a
  malformed pattern, or a `TypeError` from dereferencing `undefined`) is
  modelled with `Except JsError`.
* The host's regex engine is an external collaborator; it is modelled as an
  oracle `RegexEngine`: compilation of a pattern string either fails or
  yields a matcher sending a line to `none` (no match) or to the list of
  groups, where group 0 is the whole match and group `i` the text of the
  `i`-th capture group (`none` when the group is absent or did not
  participate).
-/

/-- One heading-like unit, as built by `createHeadingsForFile`.
`text` is an `Option` because the source stores `matches[1]`, which is the
JS value `undefined` when the pattern has no first capture group; structural
headings always carry `some` text.  The `uiElement` back-reference is
modelled separately (see `FileItemDom`). -/
structure HeadingEntry where
  text : Option String
  level : Nat
  line : Nat
deriving Repr, DecidableEq

/-- A structural heading as delivered by the host metadata cache:
`{ heading, level, position.start.line }`. -/
structure HostHeading where
  heading : String
  level : Nat
  line : Nat
deriving Repr, DecidableEq

/-- A user-configured pattern: `{ pattern: string, level: number }`. -/
structure RegexSetting where
  pattern : String
  level : Nat
deriving Repr, DecidableEq

/-- The plugin settings relevant to index building. -/
structure HeadingPluginSettings where
  showHeadings : Bool
  showHeading1 : Bool
  showHeading2 : Bool
  showHeading3 : Bool
  showHeading4 : Bool
  showHeading5 : Bool
  showHeading6 : Bool
  regexArray : List RegexSetting
deriving Repr, DecidableEq

/-- The constant `DEFAULT_SETTINGS` from `src/main.ts`. -/
def DEFAULT_SETTINGS : HeadingPluginSettings :=
  { showHeadings := true
    showHeading1 := true
    showHeading2 := true
    showHeading3 := true
    showHeading4 := true
    showHeading5 := true
    showHeading6 := true
    regexArray := [{ pattern := "^\\*\\*([^*]+)\\*\\*$", level := 7 }] }

/-- The JavaScript exceptions the embedded code can raise. -/
inductive JsError where
  /-- `new RegExp(pattern)` threw a `SyntaxError` for this pattern string. -/
  | regexSyntaxError (pattern : String)
  /-- A property of `undefined` was read (e.g. `undefined.length`). -/
  | typeErrorUndefined
deriving Repr, DecidableEq

deriving instance DecidableEq for Except

/-- The loop body of `findClosestLineOnOrAbove`.  `start` and `stop` are the
JS variables `start` and `end` (JS numbers: `end` reaches `-1`), `bestMatch`
the running best candidate.  `mid = Math.floor((start + end) / 2)`; for the
reachable states both bounds are in range, so `headingArray[mid]` exists;
the out-of-range branch (where JS would fault on `.line`) returns `none`. -/
def findClosestAux (headingArray : List HeadingEntry) (target : Nat)
    (start stop : Int) (bestMatch : Option HeadingEntry) : Option HeadingEntry :=
  if h : start ≤ stop then
    let mid : Int := (start + stop) / 2
    match headingArray.get? mid.toNat with
    | none => none
    | some e =>
      if e.line = target then some e
      else if e.line < target then
        findClosestAux headingArray target (mid + 1) stop (some e)
      else
        findClosestAux headingArray target start (mid - 1) bestMatch
  else
    bestMatch
termination_by (stop + 1 - start).toNat
decreasing_by
  all_goals omega

/-- The method `findClosestLineOnOrAbove` from `src/main.ts`: binary search over the
sorted heading array for the entry nearest on-or-above `target`. -/
def findClosestLineOnOrAbove (headingArray : List HeadingEntry) (target : Nat) :
    Option HeadingEntry :=
  if headingArray.length = 0 then none
  else findClosestAux headingArray target 0 ((headingArray.length : Int) - 1) none

unseal findClosestAux in
example :
    findClosestLineOnOrAbove
      [⟨some "a", 1, 0⟩, ⟨some "b", 2, 4⟩, ⟨some "c", 1, 9⟩] 5 =
      some ⟨some "b", 2, 4⟩ := by decide

unseal findClosestAux in
example :
    findClosestLineOnOrAbove
      [⟨some "a", 1, 3⟩] 2 = none := by decide

example : findClosestLineOnOrAbove [] 7 = none := by decide

/-- The result of `line.match(new RegExp(p))` for a non-global regex, when
the match succeeds: the list of groups.  Group 0 is the whole match text;
group `i > 0` carries `none` when the `i`-th capture group is absent from
the pattern or did not participate in the match (JS `undefined`). -/
abbrev MatchGroups := List (Option String)

/-- The host's regex engine, an external collaborator.  `compile p` is
`none` when `new RegExp(p)` throws a `SyntaxError`, otherwise the matcher
obtained from the compiled regex. -/
structure RegexEngine where
  compile : String → Option (String → Option MatchGroups)

/-- The filter condition of the `headings.reduce` in `createHeadingsForFile`:
`true` when the structural heading is dropped because its level's
visibility flag is off. -/
def droppedByLevelFilter (s : HeadingPluginSettings) (heading : HostHeading) : Bool :=
  (heading.level == 1 && !s.showHeading1) ||
  (heading.level == 2 && !s.showHeading2) ||
  (heading.level == 3 && !s.showHeading3) ||
  (heading.level == 4 && !s.showHeading4) ||
  (heading.level == 5 && !s.showHeading5) ||
  (heading.level == 6 && !s.showHeading6)

/-- The body of the `headings.reduce`: a surviving structural heading is
mapped to a `HeadingEntry` and pushed. -/
def mappedHeadings (s : HeadingPluginSettings) (headings : List HostHeading) :
    List HeadingEntry :=
  headings.foldl
    (fun acc heading =>
      if droppedByLevelFilter s heading then acc
      else acc ++ [{ text := some heading.heading
                     level := heading.level
                     line := heading.line }])
    []

/-- One iteration of the inner `regexArray.forEach` of
`createHeadingsForFile`: the pattern is compiled (`new RegExp` throws a
`SyntaxError` on a malformed pattern) and matched against the line; on a
match the entry is pushed with `matches[0]` as its text when
`matches.length < 1` (a condition that can never hold for a successful
match) and `matches[1]` otherwise. -/
def matchPatternStep (eng : RegexEngine) (line : String) (index : Nat)
    (acc : List HeadingEntry) (regexSetting : RegexSetting) :
    Except JsError (List HeadingEntry) :=
  match eng.compile regexSetting.pattern with
  | none => .error (.regexSyntaxError regexSetting.pattern)
  | some matcher =>
    match matcher line with
    | none => .ok acc
    | some matchList =>
      if matchList.length < 1 then
        .ok (acc ++ [{ text := (matchList.get? 0).join
                       level := regexSetting.level
                       line := index }])
      else
        .ok (acc ++ [{ text := (matchList.get? 1).join
                       level := regexSetting.level
                       line := index }])

/-- The inner `regexArray.forEach` over all patterns for one line. -/
def matchLineAgainstPatterns (eng : RegexEngine) (regexArray : List RegexSetting)
    (line : String) (index : Nat) : Except JsError (List HeadingEntry) :=
  regexArray.foldlM (matchPatternStep eng line index) []

/-- One iteration of the outer `fileLines.forEach`: run all patterns
against the line at the given index and append the produced entries. -/
def matchLinesStep (eng : RegexEngine) (regexArray : List RegexSetting)
    (acc : List HeadingEntry) (p : Nat × String) :
    Except JsError (List HeadingEntry) := do
  let entries ← matchLineAgainstPatterns eng regexArray p.2 p.1
  pure (acc ++ entries)

/-- The outer `fileLines.forEach` of `createHeadingsForFile`: the matched
headings accumulated over all lines (with their indices). -/
def matchedHeadings (eng : RegexEngine) (regexArray : List RegexSetting)
    (fileLines : List String) : Except JsError (List HeadingEntry) :=
  fileLines.enum.foldlM (matchLinesStep eng regexArray) []

/-- The call `.sort((a, b) => a.line - b.line)` — the ECMAScript sort is stable, so
it is embedded as a stable merge sort on the `line` key. -/
def sortByLine (entries : List HeadingEntry) : List HeadingEntry :=
  entries.mergeSort (fun a b => a.line ≤ b.line)

/-- The method `createHeadingsForFile` from `src/main.ts`, restricted to its returned
index (the `createClickableHeadings` side effect is modelled separately).
Inputs stand for the host collaborators: `fileCache` is
`metadataCache.getFileCache(file)` (`none` when the cache has no entry;
its `headings` field may itself be absent, hence the inner `Option`), and
`fileLines` is `(await vault.read(file)).split('\n')`.
Returns `.ok none` for the early exit (JS `return;`, i.e. `undefined`). -/
def createHeadingsForFile (eng : RegexEngine) (s : HeadingPluginSettings)
    (fileCache : Option (Option (List HostHeading))) (fileLines : List String) :
    Except JsError (Option (List HeadingEntry)) :=
  match fileCache with
  | none => .ok none
  | some cacheHeadings =>
    let headings := cacheHeadings.getD []
    let mapped := mappedHeadings s headings
    if s.regexArray.length = 0 then
      .ok (some (sortByLine mapped))
    else do
      let matched ← matchedHeadings eng s.regexArray fileLines
      pure (some (sortByLine (mapped ++ matched)))

/-- Modelled behaviour of the compiled default pattern `^\*\*([^*]+)\*\*$`:
a line matches exactly when it is `**mid**` with `mid` nonempty and free of
`*`; the whole line is group 0 and `mid` is group 1. -/
def matchBoldLine (line : String) : Option MatchGroups :=
  let cs := line.toList
  let mid := (cs.drop 2).take (cs.length - 4)
  if 5 ≤ cs.length ∧ cs.take 2 = ['*', '*'] ∧ cs.drop (cs.length - 2) = ['*', '*'] ∧
      mid.all (· ≠ '*') then
    some [some line, some (String.mk mid)]
  else
    none

/-- Modelled behaviour of a compiled capture-group-free pattern `^TODO`:
a line starting with `TODO` matches, the whole match `TODO` being group 0,
with no capture groups. -/
def matchTodoNoCapture (line : String) : Option MatchGroups :=
  if line.toList.take 4 = "TODO".toList then some [some "TODO"] else none

/-- A concrete regex-engine oracle for the worked examples: it knows the
default bold-line pattern and the capture-group-free pattern `^TODO`, and
any other string — in particular the malformed pattern `(` — fails to
compile. -/
def sampleEngine : RegexEngine where
  compile p :=
    if p = "^\\*\\*([^*]+)\\*\\*$" then some matchBoldLine
    else if p = "^TODO" then some matchTodoNoCapture
    else none

/-- A rendered clickable heading node: its visible text (JS `textContent`;
`none` when the entry's `text` was `undefined`) and its `style.marginLeft`
in pixels. -/
structure HeadingNode where
  textContent : Option String
  marginLeftPx : Int
deriving Repr, DecidableEq

/-- The part of a file's tree-entry DOM (`fileItem.innerEl`) that
`createClickableHeadings` touches: the child carrying the
`file-heading-container` class.  `getHeadingContainer` creates the
container only when absent and otherwise returns the first existing one,
so the state is `none` (no container attached yet) or `some` list of the
container's child nodes. -/
structure FileItemDom where
  headingContainer : Option (List HeadingNode)
deriving Repr, DecidableEq

/-- The node built for one heading in the `headings.forEach` of
`createClickableHeadings`: `textContent = heading.text` and
`style.marginLeft = (heading.level - 1) * marginMultiplier` px, the
multiplier read from the stylesheet (default 10). -/
def renderHeadingNode (marginMultiplier : Int) (heading : HeadingEntry) : HeadingNode :=
  { textContent := heading.text
    marginLeftPx := ((heading.level : Int) - 1) * marginMultiplier }

/-- The method `getHeadingContainer` from `src/main.ts`: return the existing
`file-heading-container` child, or create, attach and return a fresh empty
one. -/
def getHeadingContainer (item : FileItemDom) : List HeadingNode × FileItemDom :=
  match item.headingContainer with
  | some existingContainer => (existingContainer, item)
  | none => ([], { headingContainer := some [] })

/-- The method `createClickableHeadings` from `src/main.ts`, as a transformer of the
file's tree-entry DOM state: on an empty heading list it returns before
touching the DOM; otherwise it obtains the container, clears it
(`replaceChildren()`), and appends one rendered node per heading. -/
def createClickableHeadings (marginMultiplier : Int) (headings : List HeadingEntry)
    (item : FileItemDom) : FileItemDom :=
  if headings.length = 0 then item
  else
    let itemWithContainer := (getHeadingContainer item).2
    { itemWithContainer with
        headingContainer := some (headings.map (renderHeadingNode marginMultiplier)) }

/-- What the host observes from one `highlightFileWithHeading` call. -/
inductive HighlightOutcome where
  /-- Returned before reaching the host: no focused leaf, or its view has
  no file. -/
  | earlyReturn
  /-- The file was revealed in the folder but no heading was highlighted. -/
  | revealedOnly (fileName : String)
  /-- The file was revealed and the entry's node flashed for 2 seconds. -/
  | revealedAndHighlighted (fileName : String) (entry : HeadingEntry)
deriving Repr, DecidableEq

/-- The view state of the last active markdown leaf: `activeLeafView.file`
(`none` models JS `null`) and the editor's cursor line. -/
structure MarkdownLeafState where
  fileName : Option String
  cursorLine : Nat

/-- The plugin state read by `highlightFileWithHeading`.  A
`cachedHeadings` lookup of `none` covers both a missing key and a stored
`undefined`, indistinguishable to the JS property read. -/
structure HighlightState where
  lastActiveMarkdownLeaf : Option MarkdownLeafState
  cachedHeadings : String → Option (List HeadingEntry)

/-- The method `highlightFileWithHeading` from `src/main.ts`.  When the focused file
has no `cachedHeadings` entry, the call
`findClosestLineOnOrAbove(undefined, line)` reads `undefined.length` and
throws a `TypeError`; this happens after `revealInFolder`, and the
exception propagates out of the handler. -/
def highlightFileWithHeading (st : HighlightState) : Except JsError HighlightOutcome :=
  match st.lastActiveMarkdownLeaf with
  | none => .ok .earlyReturn
  | some activeLeaf =>
    match activeLeaf.fileName with
    | none => .ok .earlyReturn
    | some activeFileName =>
      match st.cachedHeadings activeFileName with
      | none => .error .typeErrorUndefined
      | some activeHeadings =>
        match findClosestLineOnOrAbove activeHeadings activeLeaf.cursorLine with
        | none => .ok (.revealedOnly activeFileName)
        | some closestLine => .ok (.revealedAndHighlighted activeFileName closestLine)

/-- The per-file inputs the `init` loop draws from the host: the file's
name, its metadata-cache entry, and its text split into lines. -/
structure FileInput where
  name : String
  fileCache : Option (Option (List HostHeading))
  fileLines : List String

/-- The indexing loop of `init`: for each markdown file in order, build its
headings and store them at `cachedHeadings[file.name]` (the stored value is
`undefined` — inner `none` — for a file whose cache entry was missing).  An
exception thrown by one file's build aborts the loop.  The map sends a name
to `none` when the key is absent. -/
def initLoop (eng : RegexEngine) (s : HeadingPluginSettings) :
    List FileInput → (String → Option (Option (List HeadingEntry))) →
    Except JsError (String → Option (Option (List HeadingEntry)))
  | [], cache => .ok cache
  | file :: files, cache => do
    let headingsForFile ← createHeadingsForFile eng s file.fileCache file.fileLines
    initLoop eng s files
      (fun n => if n = file.name then some headingsForFile else cache n)

/-- The specified result of the nearest-on-or-above search: `none` exactly
when every entry's line exceeds the target, otherwise some entry of the
array whose line is maximal among those `≤ target`. -/
def ClosestSpec (arr : List HeadingEntry) (t : Nat) : Option HeadingEntry → Prop
  | none => ∀ e ∈ arr, t < e.line
  | some e => e ∈ arr ∧ e.line ≤ t ∧ ∀ e' ∈ arr, e'.line ≤ t → e'.line ≤ e.line

lemma sorted_line_le (arr : List HeadingEntry)
    (hsorted : arr.Pairwise (fun a b => a.line ≤ b.line))
    (i j : Fin arr.length) (hij : (i : Nat) ≤ (j : Nat)) :
    (arr.get i).line ≤ (arr.get j).line := by
  rcases Nat.lt_or_ge (i : Nat) (j : Nat) with hlt | hge
  · exact List.pairwise_iff_get.mp hsorted i j hlt
  · have : i = j := Fin.le_antisymm hij hge
    subst this
    exact le_rfl

lemma findClosestAux_spec (arr : List HeadingEntry) (t : Nat)
    (hsorted : arr.Pairwise (fun a b => a.line ≤ b.line))
    (start stop : Int) (best : Option HeadingEntry) :
    stop < (arr.length : Int) →
    (∀ i : Fin arr.length, (i : Int) < start → (arr.get i).line < t) →
    (∀ i : Fin arr.length, stop < (i : Int) → t < (arr.get i).line) →
    ((0 < start ∧ ∃ h : (start - 1).toNat < arr.length,
        best = some (arr.get ⟨(start - 1).toNat, h⟩)) ∨ (start = 0 ∧ best = none)) →
    ClosestSpec arr t (findClosestAux arr t start stop best) := by
  induction start, stop, best using findClosestAux.induct arr t with
  | case1 start stop best hle mid hnone =>
    intro hstop hA hB hbest
    exfalso
    have hlen := List.get?_eq_none.mp hnone
    have hstart : 0 ≤ start := by rcases hbest with ⟨h, _⟩ | ⟨h, _⟩ <;> omega
    omega
  | case2 start stop best hle mid e hsome heq =>
    intro hstop hA hB hbest
    rw [findClosestAux]
    simp only [dif_pos hle, hsome, if_pos heq]
    refine ⟨List.get?_mem hsome, Nat.le_of_eq heq, fun e' _ he' => ?_⟩
    omega
  | case3 start stop best hle mid e hsome hne hlt ih =>
    intro hstop hA hB hbest
    have hstart : 0 ≤ start := by rcases hbest with ⟨h, _⟩ | ⟨h, _⟩ <;> omega
    have hmidlt : mid.toNat < arr.length := by
      have := List.get?_eq_some.mp hsome
      exact this.1
    obtain ⟨hm, hget⟩ := List.get?_eq_some.mp hsome
    rw [findClosestAux]
    simp only [dif_pos hle, hsome, if_neg hne, if_pos hlt]
    apply ih hstop
    · intro i hi
      by_cases hlow : (i : Int) < start
      · exact hA i hlow
      · have hile : (i : Nat) ≤ mid.toNat := by omega
        have := sorted_line_le arr hsorted i ⟨mid.toNat, hm⟩ hile
        rw [hget] at this
        omega
    · exact hB
    · left
      refine ⟨by omega, ?_⟩
      have hmn : (mid + 1 - 1).toNat = mid.toNat := by omega
      refine ⟨by omega, ?_⟩
      simp only [hmn]
      rw [hget]
  | case4 start stop best hle mid e hsome hne hgt ih =>
    intro hstop hA hB hbest
    have hstart : 0 ≤ start := by rcases hbest with ⟨h, _⟩ | ⟨h, _⟩ <;> omega
    obtain ⟨hm, hget⟩ := List.get?_eq_some.mp hsome
    rw [findClosestAux]
    simp only [dif_pos hle, hsome, if_neg hne, if_neg hgt]
    apply ih (by omega) hA
    · intro i hi
      have hmle : mid.toNat ≤ (i : Nat) := by omega
      have := sorted_line_le arr hsorted ⟨mid.toNat, hm⟩ i hmle
      rw [hget] at this
      omega
    · exact hbest
  | case5 start stop best hnle =>
    intro hstop hA hB hbest
    rw [findClosestAux]
    simp only [dif_neg hnle]
    rcases hbest with ⟨hpos, hk, hbe⟩ | ⟨hz, hbe⟩
    · subst hbe
      refine ⟨List.get_mem _ _ _, ?_, ?_⟩
      · have := hA ⟨(start - 1).toNat, hk⟩ (by simp; omega)
        omega
      · intro e' he' hle'
        obtain ⟨j, hj⟩ := List.mem_iff_get.mp he'
        by_cases hjlt : (j : Int) < start
        · have hjk : (j : Nat) ≤ (start - 1).toNat := by omega
          have := sorted_line_le arr hsorted j ⟨(start - 1).toNat, hk⟩ hjk
          rw [hj] at this
          exact this
        · have : t < (arr.get j).line := hB j (by omega)
          rw [hj] at this
          omega
    · subst hbe hz
      intro e he
      obtain ⟨j, hj⟩ := List.mem_iff_get.mp he
      have : t < (arr.get j).line := hB j (by omega)
      rw [hj] at this
      exact this

lemma findClosest_spec (arr : List HeadingEntry) (t : Nat)
    (hsorted : arr.Pairwise (fun a b => a.line ≤ b.line)) :
    ClosestSpec arr t (findClosestLineOnOrAbove arr t) := by
  unfold findClosestLineOnOrAbove
  by_cases hlen : arr.length = 0
  · simp only [if_pos hlen]
    intro e he
    rw [List.length_eq_zero.mp hlen] at he
    simp at he
  · simp only [if_neg hlen]
    apply findClosestAux_spec arr t hsorted
    · omega
    · intro i hi
      exfalso
      omega
    · intro i hi
      exfalso
      have := i.isLt
      omega
    · right
      exact ⟨rfl, rfl⟩

/-- C1: on a sequence sorted ascending by `line`, `findClosestLineOnOrAbove`
returns `none` exactly when the sequence is empty or every entry's line
exceeds the target, and otherwise returns an entry of the sequence whose
line value is the greatest one that is `≤ target`. -/
theorem findClosestLineOnOrAbove_correct (arr : List HeadingEntry) (t : Nat)
    (hsorted : arr.Pairwise (fun a b => a.line ≤ b.line)) :
    (findClosestLineOnOrAbove arr t = none ↔ ∀ e ∈ arr, t < e.line) ∧
    (∀ e, findClosestLineOnOrAbove arr t = some e →
      e ∈ arr ∧ e.line ≤ t ∧ ∀ e' ∈ arr, e'.line ≤ t → e'.line ≤ e.line) := by
  have h := findClosest_spec arr t hsorted
  cases hres : findClosestLineOnOrAbove arr t with
  | none =>
    rw [hres] at h
    refine ⟨⟨fun _ => h, fun _ => rfl⟩, fun e he => by simp at he⟩
  | some e =>
    rw [hres] at h
    refine ⟨⟨fun hc => by simp at hc, fun hall => ?_⟩, fun e' he' => ?_⟩
    · exfalso
      have h1 := hall e h.1
      have h2 := h.2.1
      omega
    · injection he' with he'
      subst he'
      exact h

theorem findClosestLineOnOrAbove_correct_witness :
    ([⟨some "a", 1, 0⟩, ⟨some "b", 2, 4⟩, ⟨some "c", 1, 9⟩] :
        List HeadingEntry).Pairwise (fun a b => a.line ≤ b.line) ∧
    ((findClosestLineOnOrAbove
        [⟨some "a", 1, 0⟩, ⟨some "b", 2, 4⟩, ⟨some "c", 1, 9⟩] 5 = none ↔
        ∀ e ∈ ([⟨some "a", 1, 0⟩, ⟨some "b", 2, 4⟩, ⟨some "c", 1, 9⟩] :
          List HeadingEntry), 5 < e.line) ∧
      (∀ e, findClosestLineOnOrAbove
          [⟨some "a", 1, 0⟩, ⟨some "b", 2, 4⟩, ⟨some "c", 1, 9⟩] 5 = some e →
        e ∈ ([⟨some "a", 1, 0⟩, ⟨some "b", 2, 4⟩, ⟨some "c", 1, 9⟩] :
          List HeadingEntry) ∧ e.line ≤ 5 ∧
        ∀ e' ∈ ([⟨some "a", 1, 0⟩, ⟨some "b", 2, 4⟩, ⟨some "c", 1, 9⟩] :
          List HeadingEntry), e'.line ≤ 5 → e'.line ≤ e.line)) :=
  ⟨by decide, findClosestLineOnOrAbove_correct _ 5 (by decide)⟩

/-- C8: on a sorted sequence the search result is monotone non-decreasing
in the target: if `t1 ≤ t2` and the search at `t1` yields an entry, the
search at `t2` yields one too, with a line value at least as large. -/
theorem findClosestLineOnOrAbove_monotone (arr : List HeadingEntry) (t1 t2 : Nat)
    (hsorted : arr.Pairwise (fun a b => a.line ≤ b.line)) (ht : t1 ≤ t2) :
    ∀ e1, findClosestLineOnOrAbove arr t1 = some e1 →
      ∃ e2, findClosestLineOnOrAbove arr t2 = some e2 ∧ e1.line ≤ e2.line := by
  intro e1 h1
  have hs1 := findClosest_spec arr t1 hsorted
  have hs2 := findClosest_spec arr t2 hsorted
  rw [h1] at hs1
  cases hres : findClosestLineOnOrAbove arr t2 with
  | none =>
    rw [hres] at hs2
    exfalso
    have ha := hs2 e1 hs1.1
    have hb := hs1.2.1
    omega
  | some e2 =>
    rw [hres] at hs2
    exact ⟨e2, rfl, hs2.2.2 e1 hs1.1 (le_trans hs1.2.1 ht)⟩

unseal findClosestAux in
theorem findClosestLineOnOrAbove_monotone_witness :
    ([⟨some "a", 1, 0⟩, ⟨some "b", 2, 4⟩, ⟨some "c", 1, 9⟩] :
        List HeadingEntry).Pairwise (fun a b => a.line ≤ b.line) ∧ 5 ≤ 9 ∧
    (∃ e2, findClosestLineOnOrAbove
        [⟨some "a", 1, 0⟩, ⟨some "b", 2, 4⟩, ⟨some "c", 1, 9⟩] 9 = some e2 ∧
      (⟨some "b", 2, 4⟩ : HeadingEntry).line ≤ e2.line) :=
  ⟨by decide, by decide,
    findClosestLineOnOrAbove_monotone _ 5 9 (by decide) (by decide) _ (by decide)⟩

/-- The record a surviving structural heading is mapped to. -/
def structuralEntry (h : HostHeading) : HeadingEntry :=
  { text := some h.heading, level := h.level, line := h.line }

lemma mappedHeadings_foldl (s : HeadingPluginSettings) (headings : List HostHeading) :
    ∀ acc : List HeadingEntry,
      headings.foldl
        (fun acc heading =>
          if droppedByLevelFilter s heading then acc
          else acc ++ [{ text := some heading.heading
                         level := heading.level
                         line := heading.line }]) acc =
      acc ++ (headings.filter (fun h => !droppedByLevelFilter s h)).map structuralEntry := by
  induction headings with
  | nil => intro acc; simp
  | cons h hs ih =>
    intro acc
    by_cases hd : droppedByLevelFilter s h
    · simp [List.foldl_cons, List.filter_cons, hd, ih]
    · simp [List.foldl_cons, List.filter_cons, hd, ih, structuralEntry]

lemma mappedHeadings_eq (s : HeadingPluginSettings) (headings : List HostHeading) :
    mappedHeadings s headings =
      (headings.filter (fun h => !droppedByLevelFilter s h)).map structuralEntry := by
  simpa [mappedHeadings] using mappedHeadings_foldl s headings []

lemma matchLineAgainstPatterns_nil (eng : RegexEngine) (line : String) (idx : Nat) :
    matchLineAgainstPatterns eng [] line idx = .ok [] := rfl

lemma matchedHeadings_nil (eng : RegexEngine) (lines : List String) :
    matchedHeadings eng [] lines = .ok [] := by
  unfold matchedHeadings
  suffices h : ∀ (ps : List (Nat × String)) (acc : List HeadingEntry),
      ps.foldlM (matchLinesStep eng []) acc = .ok acc by
    exact h _ []
  intro ps
  induction ps with
  | nil => intro acc; rfl
  | cons p ps ih =>
    intro acc
    rw [List.foldlM_cons]
    have hstep : matchLinesStep eng [] acc p = .ok acc := by
      simp [matchLinesStep, matchLineAgainstPatterns_nil]
    rw [hstep]
    exact ih acc

lemma createHeadingsForFile_ok_some (eng : RegexEngine) (s : HeadingPluginSettings)
    (fc : Option (Option (List HostHeading))) (lines : List String)
    (out : List HeadingEntry)
    (hok : createHeadingsForFile eng s fc lines = .ok (some out)) :
    ∃ ch matched, fc = some ch ∧
      matchedHeadings eng s.regexArray lines = .ok matched ∧
      out = sortByLine (mappedHeadings s (ch.getD []) ++ matched) := by
  cases fc with
  | none => simp [createHeadingsForFile] at hok
  | some ch =>
    refine ⟨ch, ?_⟩
    have heq : createHeadingsForFile eng s (some ch) lines =
        (if s.regexArray.length = 0 then
          Except.ok (some (sortByLine (mappedHeadings s (ch.getD []))))
        else do
          let matched ← matchedHeadings eng s.regexArray lines
          pure (some (sortByLine (mappedHeadings s (ch.getD []) ++ matched)))) := rfl
    rw [heq] at hok
    by_cases hlen : s.regexArray.length = 0
    · rw [if_pos hlen] at hok
      have hra : s.regexArray = [] := List.length_eq_zero.mp hlen
      refine ⟨[], rfl, by rw [hra]; exact matchedHeadings_nil eng lines, ?_⟩
      injection hok with hok
      injection hok with hok
      rw [← hok, List.append_nil]
    · rw [if_neg hlen] at hok
      cases hm : matchedHeadings eng s.regexArray lines with
      | error e =>
        rw [hm] at hok
        simp at hok
      | ok matched =>
        rw [hm] at hok
        refine ⟨matched, rfl, rfl, ?_⟩
        simp only [bind, Except.bind, pure, Except.pure] at hok
        injection hok with hok
        injection hok with hok
        exact hok.symm

lemma sortByLine_pairwise (l : List HeadingEntry) :
    (sortByLine l).Pairwise (fun a b => a.line ≤ b.line) := by
  unfold sortByLine
  refine List.Pairwise.imp ?_ (List.sorted_mergeSort ?_ ?_ l)
  · intro a b hab
    simpa using hab
  · intro a b c hab hbc
    simp only [decide_eq_true_eq] at *
    omega
  · intro a b
    simp only [Bool.or_eq_true, decide_eq_true_eq]
    omega

lemma pair_sublist_sortByLine {a b : HeadingEntry} {l : List HeadingEntry}
    (hab : a.line ≤ b.line) (h : List.Sublist [a, b] l) :
    List.Sublist [a, b] (sortByLine l) := by
  unfold sortByLine
  refine List.pair_sublist_mergeSort ?_ ?_ (decide_eq_true hab) h
  · intro a b c hab hbc
    simp only [decide_eq_true_eq] at *
    omega
  · intro a b
    simp only [Bool.or_eq_true, decide_eq_true_eq]
    omega

lemma sortByLine_perm (l : List HeadingEntry) : (sortByLine l).Perm l :=
  List.mergeSort_perm l _

/-- C5: every sequence the index builder returns is sorted ascending by
`line`, and when a structural entry and a pattern entry share a line, the
structural one precedes the pattern one in the output with both kept
(structural entries come first in the merge and the sort is stable). -/
theorem createHeadingsForFile_sorted (eng : RegexEngine) (s : HeadingPluginSettings)
    (fc : Option (Option (List HostHeading))) (lines : List String)
    (out : List HeadingEntry)
    (hok : createHeadingsForFile eng s fc lines = .ok (some out)) :
    out.Pairwise (fun a b => a.line ≤ b.line) ∧
    ∀ ch, fc = some ch →
      ∀ matched, matchedHeadings eng s.regexArray lines = .ok matched →
        ∀ se ∈ mappedHeadings s (ch.getD []), ∀ pe ∈ matched,
          se.line = pe.line → List.Sublist [se, pe] out := by
  obtain ⟨ch, matched, hfc, hm, hout⟩ :=
    createHeadingsForFile_ok_some eng s fc lines out hok
  subst hout
  refine ⟨sortByLine_pairwise _, ?_⟩
  intro ch' hch' matched' hm' se hse pe hpe hline
  rw [hfc] at hch'
  injection hch' with hch'
  subst hch'
  rw [hm] at hm'
  injection hm' with hm'
  subst hm'
  apply pair_sublist_sortByLine (le_of_eq hline)
  have h1 : List.Sublist [se] (mappedHeadings s (ch.getD [])) :=
    List.singleton_sublist.mpr hse
  have h2 : List.Sublist [pe] matched := List.singleton_sublist.mpr hpe
  exact h1.append h2

unseal List.merge List.mergeSort in
theorem createHeadingsForFile_sorted_witness :
    createHeadingsForFile sampleEngine DEFAULT_SETTINGS
        (some (some [⟨"H", 1, 0⟩])) ["**b**"] =
      .ok (some [⟨some "H", 1, 0⟩, ⟨some "b", 7, 0⟩]) ∧
    ([⟨some "H", 1, 0⟩, ⟨some "b", 7, 0⟩] :
        List HeadingEntry).Pairwise (fun a b => a.line ≤ b.line) ∧
    List.Sublist [(⟨some "H", 1, 0⟩ : HeadingEntry), ⟨some "b", 7, 0⟩]
      [⟨some "H", 1, 0⟩, ⟨some "b", 7, 0⟩] := by
  refine ⟨by decide, ?_, ?_⟩
  · exact (createHeadingsForFile_sorted sampleEngine DEFAULT_SETTINGS
      (some (some [⟨"H", 1, 0⟩])) ["**b**"] _ (by decide)).1
  · exact (createHeadingsForFile_sorted sampleEngine DEFAULT_SETTINGS
      (some (some [⟨"H", 1, 0⟩])) ["**b**"] _ (by decide)).2
      (some [⟨"H", 1, 0⟩]) rfl [⟨some "b", 7, 0⟩] (by decide)
      ⟨some "H", 1, 0⟩ (by decide) ⟨some "b", 7, 0⟩ (by decide) rfl

/-- The visibility flag of the settings for structural level `L` (levels
the filter never examines count as visible). -/
def showHeadingFlag (s : HeadingPluginSettings) : Nat → Bool
  | 1 => s.showHeading1
  | 2 => s.showHeading2
  | 3 => s.showHeading3
  | 4 => s.showHeading4
  | 5 => s.showHeading5
  | 6 => s.showHeading6
  | _ => true

lemma droppedByLevelFilter_eq_not_flag (s : HeadingPluginSettings) (h : HostHeading)
    (h1 : 1 ≤ h.level) (h6 : h.level ≤ 6) :
    droppedByLevelFilter s h = !showHeadingFlag s h.level := by
  obtain ⟨txt, L, ln⟩ := h
  dsimp only at h1 h6 ⊢
  interval_cases L <;> simp [droppedByLevelFilter, showHeadingFlag]

lemma structuralEntry_inj {h h' : HostHeading}
    (he : structuralEntry h = structuralEntry h') : h = h' := by
  cases h
  cases h'
  simp only [structuralEntry, HeadingEntry.mk.injEq, Option.some.injEq] at he
  obtain ⟨e1, e2, e3⟩ := he
  simp_all

/-- C6: a structural heading of level 1–6 survives into the built index iff
its level's visibility flag is on, while pattern-match entries are included
regardless of the flags: the output permutes the filtered structural
entries together with all pattern entries. -/
theorem createHeadingsForFile_levelFilter (eng : RegexEngine) (s : HeadingPluginSettings)
    (hh : List HostHeading) (lines : List String) (out matched : List HeadingEntry)
    (hok : createHeadingsForFile eng s (some (some hh)) lines = .ok (some out))
    (hm : matchedHeadings eng s.regexArray lines = .ok matched) :
    out.Perm (mappedHeadings s hh ++ matched) ∧
    (∀ h ∈ hh, 1 ≤ h.level → h.level ≤ 6 →
      (structuralEntry h ∈ mappedHeadings s hh ↔ showHeadingFlag s h.level = true)) ∧
    ∀ pe ∈ matched, pe ∈ out := by
  obtain ⟨ch, matched', hfc, hm', hout⟩ :=
    createHeadingsForFile_ok_some eng s _ lines out hok
  injection hfc with hfc
  subst hfc
  rw [hm] at hm'
  injection hm' with hm'
  subst hm'
  subst hout
  refine ⟨sortByLine_perm _, ?_, ?_⟩
  · intro h hmem hl1 hl6
    rw [mappedHeadings_eq]
    constructor
    · intro hin
      obtain ⟨h', hh', he'⟩ := List.mem_map.mp hin
      rw [structuralEntry_inj he'] at hh'
      have hf := (List.mem_filter.mp hh').2
      rw [droppedByLevelFilter_eq_not_flag s h hl1 hl6] at hf
      simpa using hf
    · intro hflag
      refine List.mem_map_of_mem _ (List.mem_filter.mpr ⟨hmem, ?_⟩)
      rw [droppedByLevelFilter_eq_not_flag s h hl1 hl6, hflag]
      rfl
  · intro pe hpe
    exact (sortByLine_perm _).mem_iff.mpr (List.mem_append_right _ hpe)

/-- Witness input: settings with only the level-3 visibility flag on and
the default pattern list. -/
def onlyLevel3Settings : HeadingPluginSettings :=
  { showHeadings := true, showHeading1 := false, showHeading2 := false,
    showHeading3 := true, showHeading4 := false, showHeading5 := false,
    showHeading6 := false,
    regexArray := [{ pattern := "^\\*\\*([^*]+)\\*\\*$", level := 7 }] }

/-- Witness input: one structural heading at each of the levels 1-6. -/
def sixLevelHeadings : List HostHeading :=
  [⟨"h1", 1, 0⟩, ⟨"h2", 2, 1⟩, ⟨"h3", 3, 2⟩, ⟨"h4", 4, 3⟩, ⟨"h5", 5, 4⟩, ⟨"h6", 6, 5⟩]

unseal List.merge List.mergeSort in
theorem createHeadingsForFile_levelFilter_witness :
    createHeadingsForFile sampleEngine onlyLevel3Settings
        (some (some sixLevelHeadings)) ["**x**"] =
      .ok (some [⟨some "x", 7, 0⟩, ⟨some "h3", 3, 2⟩]) ∧
    (structuralEntry ⟨"h3", 3, 2⟩ ∈ mappedHeadings onlyLevel3Settings sixLevelHeadings ↔
      showHeadingFlag onlyLevel3Settings 3 = true) ∧
    (⟨some "x", 7, 0⟩ : HeadingEntry) ∈
      [(⟨some "x", 7, 0⟩ : HeadingEntry), ⟨some "h3", 3, 2⟩] := by
  refine ⟨by decide, ?_, ?_⟩
  · exact (createHeadingsForFile_levelFilter sampleEngine onlyLevel3Settings
      sixLevelHeadings ["**x**"] [⟨some "x", 7, 0⟩, ⟨some "h3", 3, 2⟩]
      [⟨some "x", 7, 0⟩] (by decide) (by decide)).2.1 ⟨"h3", 3, 2⟩ (by decide)
      (by decide) (by decide)
  · exact (createHeadingsForFile_levelFilter sampleEngine onlyLevel3Settings
      sixLevelHeadings ["**x**"] [⟨some "x", 7, 0⟩, ⟨some "h3", 3, 2⟩]
      [⟨some "x", 7, 0⟩] (by decide) (by decide)).2.2 _ (by decide)

unseal List.merge List.mergeSort in
/-- C2: evaluation of the pattern matcher at the spec's worked example and
at a capture-group-free pattern.  With the default pattern (which has a
capture group) the line `**Important**` yields `{text: "Important", level:
7}` as the claim states; but with a pattern that has no capture group the
stored text is `matches[1]`, the JS value `undefined` (`none` here), not
the whole match text `"TODO"`, because the guard `matches.length < 1` can
never hold for a successful match. -/
theorem matchedText_capture_fallback :
    createHeadingsForFile sampleEngine DEFAULT_SETTINGS (some (some []))
        ["**Important**"] =
      .ok (some [{ text := some "Important", level := 7, line := 0 }]) ∧
    createHeadingsForFile sampleEngine
        { DEFAULT_SETTINGS with regexArray := [{ pattern := "^TODO", level := 7 }] }
        (some (some [])) ["TODO: buy milk"] =
      .ok (some [{ text := none, level := 7, line := 0 }]) ∧
    (some [{ text := none, level := 7, line := 0 }] :
        Option (List HeadingEntry)) ≠
      some [{ text := some "TODO", level := 7, line := 0 }] := by
  refine ⟨?_, ?_, by decide⟩ <;> decide

lemma matchPatterns_foldlM_error (eng : RegexEngine) (line : String) (idx : Nat) :
    ∀ (ra : List RegexSetting) (acc : List HeadingEntry),
      (∃ rs ∈ ra, eng.compile rs.pattern = none) →
      ∃ p, ra.foldlM (matchPatternStep eng line idx) acc =
          .error (.regexSyntaxError p) ∧ eng.compile p = none := by
  intro ra
  induction ra with
  | nil =>
    intro acc h
    simp at h
  | cons rs rest ih =>
    intro acc hbad
    rw [List.foldlM_cons]
    cases hc : eng.compile rs.pattern with
    | none =>
      have hstep : matchPatternStep eng line idx acc rs =
          .error (.regexSyntaxError rs.pattern) := by
        simp [matchPatternStep, hc]
      rw [hstep]
      exact ⟨rs.pattern, rfl, hc⟩
    | some matcher =>
      have hstep : ∃ acc', matchPatternStep eng line idx acc rs = .ok acc' := by
        simp only [matchPatternStep, hc]
        cases matcher line with
        | none => exact ⟨acc, rfl⟩
        | some ml =>
          dsimp only
          by_cases hl : ml.length < 1
          · exact ⟨_, if_pos hl⟩
          · exact ⟨_, if_neg hl⟩
      obtain ⟨acc', hstep⟩ := hstep
      rw [hstep]
      have hb : (Except.ok acc' >>= fun b =>
          rest.foldlM (matchPatternStep eng line idx) b) =
          rest.foldlM (matchPatternStep eng line idx) acc' := rfl
      rw [hb]
      rcases hbad with ⟨rs', hmem, hc'⟩
      rcases List.mem_cons.mp hmem with heq | hmem'
      · subst heq
        rw [hc] at hc'
        exact absurd hc' (by simp)
      · exact ih acc' ⟨rs', hmem', hc'⟩

lemma matchedHeadings_error (eng : RegexEngine) (ra : List RegexSetting)
    (fileLines : List String) (hlines : fileLines ≠ [])
    (hbad : ∃ rs ∈ ra, eng.compile rs.pattern = none) :
    ∃ p, matchedHeadings eng ra fileLines = .error (.regexSyntaxError p) ∧
      eng.compile p = none := by
  cases fileLines with
  | nil => exact absurd rfl hlines
  | cons l ls =>
    obtain ⟨p, herr, hcp⟩ := matchPatterns_foldlM_error eng l 0 ra [] hbad
    refine ⟨p, ?_, hcp⟩
    unfold matchedHeadings
    have henum : (l :: ls).enum = (0, l) :: ls.enumFrom 1 := rfl
    rw [henum, List.foldlM_cons]
    have hstep : matchLinesStep eng ra [] (0, l) = .error (.regexSyntaxError p) := by
      unfold matchLinesStep
      show (matchLineAgainstPatterns eng ra l 0 >>= fun entries => pure ([] ++ entries)) = _
      unfold matchLineAgainstPatterns
      rw [herr]
      rfl
    rw [hstep]
    rfl

/-- C3 (amended): a user pattern that fails to compile is not caught: the
`SyntaxError` thrown by `new RegExp` propagates out of
`createHeadingsForFile`, aborting that file's rebuild instead of treating
the pattern as never-matching. -/
theorem createHeadingsForFile_malformedPattern (eng : RegexEngine)
    (s : HeadingPluginSettings) (ch : Option (List HostHeading))
    (lines : List String) (hlines : lines ≠ [])
    (hbad : ∃ rs ∈ s.regexArray, eng.compile rs.pattern = none) :
    ∃ p, createHeadingsForFile eng s (some ch) lines =
        .error (.regexSyntaxError p) ∧ eng.compile p = none := by
  obtain ⟨p, herr, hcp⟩ := matchedHeadings_error eng s.regexArray lines hlines hbad
  refine ⟨p, ?_, hcp⟩
  have heq : createHeadingsForFile eng s (some ch) lines =
      (if s.regexArray.length = 0 then
        Except.ok (some (sortByLine (mappedHeadings s (ch.getD []))))
      else do
        let matched ← matchedHeadings eng s.regexArray lines
        pure (some (sortByLine (mappedHeadings s (ch.getD []) ++ matched)))) := rfl
  rw [heq]
  have hne : ¬s.regexArray.length = 0 := by
    intro hlen
    rcases hbad with ⟨rs, hmem, _⟩
    rw [List.length_eq_zero.mp hlen] at hmem
    simp at hmem
  rw [if_neg hne]
  show (matchedHeadings eng s.regexArray lines >>= fun matched =>
    pure (some (sortByLine (mappedHeadings s (ch.getD []) ++ matched)))) = _
  rw [herr]
  rfl

/-- C3 (counterexample): with the malformed pattern `(` configured ahead of
the default pattern, the rebuild of a one-line file throws a `SyntaxError`
instead of treating `(` as never-matching and still indexing the match of
the other pattern. -/
theorem createHeadingsForFile_malformedPattern_counterexample :
    createHeadingsForFile sampleEngine
        { DEFAULT_SETTINGS with regexArray :=
            [{ pattern := "(", level := 7 },
             { pattern := "^\\*\\*([^*]+)\\*\\*$", level := 7 }] }
        (some (some [])) ["**Important**"] =
      .error (.regexSyntaxError "(") ∧
    (Except.error (.regexSyntaxError "(") :
        Except JsError (Option (List HeadingEntry))) ≠
      .ok (some [{ text := some "Important", level := 7, line := 0 }]) := by
  exact ⟨by decide, by decide⟩

unseal findClosestAux in
theorem createHeadingsForFile_malformedPattern_witness :
    (["**Important**"] : List String) ≠ [] ∧
    (∃ rs ∈ ({ DEFAULT_SETTINGS with regexArray :=
        [{ pattern := "(", level := 7 },
         { pattern := "^\\*\\*([^*]+)\\*\\*$", level := 7 }] } :
          HeadingPluginSettings).regexArray,
      sampleEngine.compile rs.pattern = none) ∧
    ∃ p, createHeadingsForFile sampleEngine
        { DEFAULT_SETTINGS with regexArray :=
            [{ pattern := "(", level := 7 },
             { pattern := "^\\*\\*([^*]+)\\*\\*$", level := 7 }] }
        (some (some [])) ["**Important**"] =
        .error (.regexSyntaxError p) ∧ sampleEngine.compile p = none := by
  refine ⟨by decide, ⟨{ pattern := "(", level := 7 }, by decide, rfl⟩, ?_⟩
  exact createHeadingsForFile_malformedPattern sampleEngine _ _ _ (by decide)
    ⟨{ pattern := "(", level := 7 }, by decide, rfl⟩

/-- C4 (counterexample): redrawing with an empty heading sequence does not
replace previously attached children — the early return leaves the stale
node in place, so the container does not hold one node per entry. -/
theorem createClickableHeadings_counterexample :
    (createClickableHeadings 10 []
        { headingContainer := some [{ textContent := some "old", marginLeftPx := 0 }]
        }).headingContainer =
      some [{ textContent := some "old", marginLeftPx := 0 }] ∧
    (some [{ textContent := some "old", marginLeftPx := 0 }] :
        Option (List HeadingNode)) ≠
      some (([] : List HeadingEntry).map (renderHeadingNode 10)) := by
  exact ⟨rfl, by decide⟩

/-- C4 (amended): for every nonempty heading sequence the redraw leaves
exactly one heading container holding exactly one rendered node per entry
(its text and `(level - 1) * multiplier` indent), replacing any previously
attached children, and redrawing twice with the same input yields the same
state with no duplicate accumulation.  (For the empty sequence the redraw
is skipped entirely; see the C10 theorem.) -/
theorem createClickableHeadings_idempotent (marginMultiplier : Int)
    (headings : List HeadingEntry) (item : FileItemDom)
    (hne : headings ≠ []) :
    (createClickableHeadings marginMultiplier headings item).headingContainer =
      some (headings.map (renderHeadingNode marginMultiplier)) ∧
    createClickableHeadings marginMultiplier headings
        (createClickableHeadings marginMultiplier headings item) =
      createClickableHeadings marginMultiplier headings item := by
  have hlen : ¬headings.length = 0 := by
    simpa [List.length_eq_zero] using hne
  constructor
  · unfold createClickableHeadings
    rw [if_neg hlen]
  · unfold createClickableHeadings
    rw [if_neg hlen, if_neg hlen]

theorem createClickableHeadings_idempotent_witness :
    ([⟨some "Intro", 1, 0⟩] : List HeadingEntry) ≠ [] ∧
    (createClickableHeadings 10 [⟨some "Intro", 1, 0⟩]
        { headingContainer := some [{ textContent := some "old", marginLeftPx := 0 }]
        }).headingContainer =
      some [{ textContent := some "Intro", marginLeftPx := 0 }] ∧
    createClickableHeadings 10 [⟨some "Intro", 1, 0⟩]
        (createClickableHeadings 10 [⟨some "Intro", 1, 0⟩]
          { headingContainer := some [{ textContent := some "old", marginLeftPx := 0 }]
          }) =
      createClickableHeadings 10 [⟨some "Intro", 1, 0⟩]
        { headingContainer := some [{ textContent := some "old", marginLeftPx := 0 }]
        } := by
  refine ⟨by decide, ?_, ?_⟩
  · exact (createClickableHeadings_idempotent 10 [⟨some "Intro", 1, 0⟩]
      { headingContainer := some [{ textContent := some "old", marginLeftPx := 0 }] }
      (by decide)).1
  · exact (createClickableHeadings_idempotent 10 [⟨some "Intro", 1, 0⟩]
      { headingContainer := some [{ textContent := some "old", marginLeftPx := 0 }] }
      (by decide)).2

/-- C10: called with an empty heading sequence, `createClickableHeadings`
returns before touching the DOM: the file item's state is unchanged — no
heading container is created and previously rendered nodes stay in place. -/
theorem createClickableHeadings_empty_noop (marginMultiplier : Int)
    (item : FileItemDom) :
    createClickableHeadings marginMultiplier [] item = item := rfl

/-- C7 (counterexample): when the heading index has no entry at all for the
focused file (`cachedHeadings[name]` is `undefined`), the highlight request
is not a silent no-op: `findClosestLineOnOrAbove(undefined, line)` reads
`undefined.length` and throws a `TypeError`. -/
theorem highlightFileWithHeading_counterexample :
    highlightFileWithHeading
        { lastActiveMarkdownLeaf := some { fileName := some "a.md", cursorLine := 3 }
          cachedHeadings := fun _ => none } = .error .typeErrorUndefined ∧
    (Except.error .typeErrorUndefined : Except JsError HighlightOutcome) ≠
      .ok .earlyReturn ∧
    (Except.error .typeErrorUndefined : Except JsError HighlightOutcome) ≠
      .ok (.revealedOnly "a.md") := by
  refine ⟨rfl, by decide, by decide⟩

/-- C7 (amended): the highlight request completes without raising an error
when no document has ever been focused, when the focused view has no file,
or when the focused file's cached sequence exists and is empty (then the
file is revealed but nothing is highlighted); only a file name with no
entry in the heading index makes the lookup throw. -/
theorem highlightFileWithHeading_noop (st : HighlightState) :
    (st.lastActiveMarkdownLeaf = none →
      highlightFileWithHeading st = .ok .earlyReturn) ∧
    (∀ leaf, st.lastActiveMarkdownLeaf = some leaf → leaf.fileName = none →
      highlightFileWithHeading st = .ok .earlyReturn) ∧
    (∀ leaf name, st.lastActiveMarkdownLeaf = some leaf →
      leaf.fileName = some name → st.cachedHeadings name = some [] →
      highlightFileWithHeading st = .ok (.revealedOnly name)) := by
  refine ⟨?_, ?_, ?_⟩
  · intro hnone
    unfold highlightFileWithHeading
    rw [hnone]
  · intro leaf hleaf hfile
    unfold highlightFileWithHeading
    rw [hleaf]
    dsimp only
    rw [hfile]
  · intro leaf name hleaf hfile hcache
    unfold highlightFileWithHeading
    rw [hleaf]
    dsimp only
    rw [hfile]
    dsimp only
    rw [hcache]
    rfl

theorem highlightFileWithHeading_noop_witness :
    highlightFileWithHeading
        { lastActiveMarkdownLeaf := some { fileName := some "a.md", cursorLine := 3 }
          cachedHeadings := fun _ => some [] } = .ok (.revealedOnly "a.md") :=
  (highlightFileWithHeading_noop
      { lastActiveMarkdownLeaf := some { fileName := some "a.md", cursorLine := 3 }
        cachedHeadings := fun _ => some [] }).2.2
    { fileName := some "a.md", cursorLine := 3 } "a.md" rfl rfl rfl

/-- Agreement of two init-loop results away from one file name: both fail
with the same error, or both succeed with caches equal at every other
name. -/
def agreesOffName
    (r1 r2 : Except JsError (String → Option (Option (List HeadingEntry))))
    (m : String) : Prop :=
  match r1, r2 with
  | .ok g1, .ok g2 => ∀ n, n ≠ m → g1 n = g2 n
  | .error e1, .error e2 => e1 = e2
  | _, _ => False

lemma exceptBindOk {α β ε : Type} (a : α) (g : α → Except ε β) :
    (Except.ok a >>= g) = g a := rfl

lemma exceptBindErr {α β ε : Type} (e : ε) (g : α → Except ε β) :
    ((Except.error e : Except ε α) >>= g) = .error e := rfl

lemma initLoop_cons (eng : RegexEngine) (s : HeadingPluginSettings)
    (f : FileInput) (fs : List FileInput)
    (c : String → Option (Option (List HeadingEntry))) :
    initLoop eng s (f :: fs) c =
      (createHeadingsForFile eng s f.fileCache f.fileLines) >>= fun h =>
        initLoop eng s fs (fun n => if n = f.name then some h else c n) := rfl

lemma initLoop_congr (eng : RegexEngine) (s : HeadingPluginSettings) (m : String) :
    ∀ (files : List FileInput) (c1 c2 : String → Option (Option (List HeadingEntry))),
      (∀ n, n ≠ m → c1 n = c2 n) →
      agreesOffName (initLoop eng s files c1) (initLoop eng s files c2) m := by
  intro files
  induction files with
  | nil =>
    intro c1 c2 hagree
    unfold initLoop agreesOffName
    exact hagree
  | cons f fs ih =>
    intro c1 c2 hagree
    rw [initLoop_cons, initLoop_cons]
    cases hbuild : createHeadingsForFile eng s f.fileCache f.fileLines with
    | error e =>
      rw [exceptBindErr, exceptBindErr]
      unfold agreesOffName
      rfl
    | ok hres =>
      rw [exceptBindOk, exceptBindOk]
      apply ih
      intro n hn
      by_cases hf : n = f.name
      · rw [if_pos hf, if_pos hf]
      · rw [if_neg hf, if_neg hf]
        exact hagree n hn

lemma initLoop_append (eng : RegexEngine) (s : HeadingPluginSettings) :
    ∀ (xs ys : List FileInput) (c : String → Option (Option (List HeadingEntry))),
      initLoop eng s (xs ++ ys) c =
        (initLoop eng s xs c) >>= fun c' => initLoop eng s ys c' := by
  intro xs
  induction xs with
  | nil => intro ys c; rfl
  | cons f fs ih =>
    intro ys c
    rw [show (f :: fs) ++ ys = f :: (fs ++ ys) from rfl]
    rw [initLoop_cons, initLoop_cons]
    cases hbuild : createHeadingsForFile eng s f.fileCache f.fileLines with
    | error e =>
      rw [exceptBindErr, exceptBindErr, exceptBindErr]
    | ok hres =>
      rw [exceptBindOk, exceptBindOk]
      exact ih ys _

/-- C9: a file whose metadata-cache entry is missing makes the index
builder exit early with no error — for any settings, even ones holding
malformed patterns, the build returns JS `undefined` — and inserting such
a file anywhere in the `init` indexing loop changes neither the loop's
success or failure nor any other file's stored index. -/
theorem createHeadingsForFile_missingCache (eng : RegexEngine)
    (s : HeadingPluginSettings) (lines : List String)
    (xs ys : List FileInput) (bad : FileInput) (hbad : bad.fileCache = none)
    (cache : String → Option (Option (List HeadingEntry))) :
    createHeadingsForFile eng s none lines = .ok none ∧
    agreesOffName (initLoop eng s (xs ++ bad :: ys) cache)
      (initLoop eng s (xs ++ ys) cache) bad.name := by
  refine ⟨rfl, ?_⟩
  rw [initLoop_append eng s xs (bad :: ys) cache, initLoop_append eng s xs ys cache]
  cases hxs : initLoop eng s xs cache with
  | error e =>
    rw [exceptBindErr, exceptBindErr]
    unfold agreesOffName
    rfl
  | ok c' =>
    rw [exceptBindOk, exceptBindOk]
    have h3 : initLoop eng s (bad :: ys) c' =
        initLoop eng s ys (fun n => if n = bad.name then some none else c' n) := by
      rw [initLoop_cons, hbad]
      rfl
    rw [h3]
    apply initLoop_congr
    intro n hn
    rw [if_neg hn]

theorem createHeadingsForFile_missingCache_witness :
    createHeadingsForFile sampleEngine DEFAULT_SETTINGS none ["x"] = .ok none ∧
    agreesOffName
      (initLoop sampleEngine DEFAULT_SETTINGS
        [⟨"a.md", some (some [⟨"A", 1, 0⟩]), ["# A"]⟩,
         ⟨"missing.md", none, ["x"]⟩] (fun _ => none))
      (initLoop sampleEngine DEFAULT_SETTINGS
        [⟨"a.md", some (some [⟨"A", 1, 0⟩]), ["# A"]⟩] (fun _ => none))
      "missing.md" :=
  createHeadingsForFile_missingCache sampleEngine DEFAULT_SETTINGS ["x"]
    [⟨"a.md", some (some [⟨"A", 1, 0⟩]), ["# A"]⟩] []
    ⟨"missing.md", none, ["x"]⟩ rfl (fun _ => none)
